import Mathlib

/-!
Shallow embedding of the struct-validator Go package (validator.go) and
proofs about the claims of its specification.

The embedding follows the source file closely:
  - `FieldValidation`, the flag constants and the `Fail*` constants mirror
    the declarations at the top of validator.go;
  - `setValidationFromTag`, `validateValue`, `isNotInt`, `isNotString`,
    `isKeyInMap` and `Validate` mirror the functions of the same names;
  - Go panics (`regexp.MustCompile` on a malformed pattern,
    `reflect.Value.Elem` on a non-pointer, `reflect.Value.Int` on a
    non-integer) are modelled with `Except GoPanic`;
  - Go maps are modelled as association lists, runtime values as a tagged
    variant carrying the concrete type name that `reflect.Type.Name`
    would report.

Regular expressions are modelled by an explicit syntax tree with a
Brzozowski-derivative matcher.  `containsMatch` has the semantics of Go
`Regexp.MatchString` (the string contains a match anywhere), `fullMatch`
is the anchored whole-string match.  `compileRegex` parses the fragment
of Go pattern syntax built from alphanumeric literals, grouping,
alternation and star; on that fragment it accepts exactly the patterns
Go `regexp.Compile` accepts, with the same meaning.
-/

deriving instance DecidableEq for Except

namespace StructValidator

/-- Go `strings.HasPrefix`. -/
def goHasPrefix (s pre : String) : Bool := pre.data.isPrefixOf s.data

/-- Go `strings.HasSuffix`. -/
def goHasSuffix (s suf : String) : Bool := suf.data.isSuffixOf s.data

def goSplitSpaceAux : List Char → List Char → List String
  | [], acc => [String.mk acc.reverse]
  | c :: rest, acc =>
    if c = ' ' then String.mk acc.reverse :: goSplitSpaceAux rest []
    else goSplitSpaceAux rest (c :: acc)

/-- Go `strings.SplitN(s, " ", -1)`: split at every single space; the
empty string yields one empty piece. -/
def goSplitSpace (s : String) : List String := goSplitSpaceAux s.data []

/-- Syntax trees for the regular-expression fragment.  `cls` is a
character class given by its characteristic function. -/
inductive Regex where
  | empty : Regex
  | eps : Regex
  | cls : (Char → Bool) → Regex
  | concat : Regex → Regex → Regex
  | alt : Regex → Regex → Regex
  | star : Regex → Regex

def Regex.char (c : Char) : Regex := Regex.cls (fun d => d == c)

def nullable : Regex → Bool
  | .empty => false
  | .eps => true
  | .cls _ => false
  | .concat a b => nullable a && nullable b
  | .alt a b => nullable a || nullable b
  | .star _ => true

def deriv : Regex → Char → Regex
  | .empty, _ => .empty
  | .eps, _ => .empty
  | .cls p, c => if p c then .eps else .empty
  | .concat a b, c =>
      if nullable a then .alt (.concat (deriv a c) b) (deriv b c)
      else .concat (deriv a c) b
  | .alt a b, c => .alt (deriv a c) (deriv b c)
  | .star a, c => .concat (deriv a c) (.star a)

/-- Anchored whole-string matching: does `r` match exactly the given
character list? -/
def fullMatch : Regex → List Char → Bool
  | r, [] => nullable r
  | r, c :: cs => fullMatch (deriv r c) cs

/-- Does `r` match some (possibly empty) leading segment of the list? -/
def existsHeadMatch : Regex → List Char → Bool
  | r, [] => nullable r
  | r, c :: cs => nullable r || existsHeadMatch (deriv r c) cs

/-- Semantics of Go `Regexp.MatchString`: the string contains a match of
`r` starting at some position (unanchored, substring semantics). -/
def containsMatch : Regex → List Char → Bool
  | r, [] => nullable r
  | r, c :: cs => existsHeadMatch r (c :: cs) || containsMatch r cs

/-- Bounded repetition, zero up to `n` copies of `r`; used for the
counted repetitions of the email pattern. -/
def upTo (r : Regex) : Nat → Regex
  | 0 => Regex.eps
  | n + 1 => Regex.alt Regex.eps (Regex.concat r (upTo r n))

/-- The special characters of the email pattern local part, the class
[a-zA-Z0-9.!#$%&\x27*+/=?^_\x60\x7b|\x7d~-] minus the alphanumerics. -/
def emailSpecialChars : String := ".!#$%&\x27*+/=?^_\x60\x7b|\x7d~-"

def emailLocalChar (c : Char) : Bool := c.isAlphanum || emailSpecialChars.data.contains c

def alnumChar (c : Char) : Bool := c.isAlphanum

def alnumHyphenChar (c : Char) : Bool := c.isAlphanum || c == '-'

/-- One domain label of the email pattern:
[a-zA-Z0-9](?:[a-zA-Z0-9-]\x7b0,61\x7d[a-zA-Z0-9])? -/
def emailLabel : Regex :=
  Regex.concat (Regex.cls alnumChar)
    (Regex.alt Regex.eps
      (Regex.concat (upTo (Regex.cls alnumHyphenChar) 61) (Regex.cls alnumChar)))

/-- The email pattern compiled inside validateValue, without its `^` and
`$` anchors (under MatchString an `^...$` pattern is a whole-string
match, so `emailMatch` below uses `fullMatch`). -/
def emailRegex : Regex :=
  Regex.concat
    (Regex.concat
      (Regex.concat (Regex.cls emailLocalChar) (Regex.star (Regex.cls emailLocalChar)))
      (Regex.char '@'))
    (Regex.concat emailLabel (Regex.star (Regex.concat (Regex.char '.') emailLabel)))

def emailMatch (s : String) : Bool := fullMatch emailRegex s.data

/-- True when parsing of a concatenation must stop: end of input, a
closing parenthesis, or an alternation bar. -/
def atSeqEnd (cs : List Char) : Bool :=
  match cs with
  | [] => true
  | ')' :: _ => true
  | '|' :: _ => true
  | _ => false

def isLiteralChar (c : Char) : Bool := c.isAlphanum

mutual

def parseAlt : Nat → List Char → Option (Regex × List Char)
  | 0, _ => none
  | fuel + 1, cs =>
    match parseSeq fuel cs with
    | none => none
    | some (r, rest) =>
      match rest with
      | '|' :: rest2 =>
        match parseAlt fuel rest2 with
        | none => none
        | some (r2, rest3) => some (Regex.alt r r2, rest3)
      | _ => some (r, rest)

def parseSeq : Nat → List Char → Option (Regex × List Char)
  | 0, _ => none
  | fuel + 1, cs =>
    if atSeqEnd cs then some (Regex.eps, cs)
    else
      match parseAtom fuel cs with
      | none => none
      | some (r, rest) =>
        match rest with
        | '*' :: rest2 =>
          match parseSeq fuel rest2 with
          | none => none
          | some (r2, rest3) => some (Regex.concat (Regex.star r) r2, rest3)
        | _ =>
          match parseSeq fuel rest with
          | none => none
          | some (r2, rest3) => some (Regex.concat r r2, rest3)

def parseAtom : Nat → List Char → Option (Regex × List Char)
  | 0, _ => none
  | fuel + 1, cs =>
    match cs with
    | '(' :: rest =>
      match parseAlt fuel rest with
      | none => none
      | some (r, rest2) =>
        match rest2 with
        | ')' :: rest3 => some (r, rest3)
        | _ => none
    | c :: rest => if isLiteralChar c then some (Regex.char c, rest) else none
    | [] => none

end

/-- Model of Go `regexp.Compile` on the fragment handled by `parseAlt`:
alphanumeric literals, grouping, alternation, star.  Returns `none` on
the patterns Go rejects (for example a dangling parenthesis or a star
with no operand). -/
def compileRegex (s : String) : Option Regex :=
  match parseAlt (4 * s.length + 8) s.data with
  | some (r, []) => some r
  | _ => none

/-- The alphabet on which `compileRegex` models Go pattern syntax. -/
def inRegexFragment (s : String) : Bool :=
  s.data.all fun c => c.isAlphanum || c == '(' || c == ')' || c == '|' || c == '*'

/-- Go panics that the package can raise: `regexp.MustCompile` on a
malformed pattern, `reflect.Value.Elem` on a non-pointer argument, and
`reflect.Value.Int` on a value that is not of a signed integer kind. -/
inductive GoPanic where
  | badRegex (pat : String)
  | elemOfNonPtr
  | intValueOnNonInt
  deriving DecidableEq

/-- A runtime value together with the concrete type name that
`reflect.Type.Name()` reports for it ("string", "int", "uint64", or the
name of a user-defined type such as "Country"). -/
inductive Value where
  | str (typeName : String) (s : String)
  | intv (typeName : String) (n : Int)
  | other (typeName : String)
  deriving DecidableEq

def Value.typeName : Value → String
  | .str t _ => t
  | .intv t _ => t
  | .other t => t

/-- Go `reflect.Value.String()`: the string payload for a string-kind
value, a placeholder (never the empty string) for any other kind. -/
def goString : Value → String
  | .str _ s => s
  | v => "<" ++ v.typeName ++ " Value>"

/-- Go `reflect.Value.Int()`: the integer payload for a signed-integer
value, a panic for anything else. -/
def goIntE : Value → Except GoPanic Int
  | .intv _ n => .ok n
  | _ => .error .intValueOnNonInt

-- values used with flags (constants from validator.go)
def ValMinNotNil : Nat := 2
def ValMaxNotNil : Nat := 4
def Required : Nat := 8
def Email : Nat := 16

-- values for invalid field flags (constants from validator.go)
def FailLenMin : Nat := 2
def FailLenMax : Nat := 4
def FailValMin : Nat := 8
def FailValMax : Nat := 16
def FailEmpty : Nat := 32
def FailRegexp : Nat := 64
def FailEmail : Nat := 128
def FailZero : Nat := 256

/-- The FieldValidation struct of validator.go.  `lenMin`, `lenMax`,
`valMin`, `valMax` are Go `int`/`int64`; `flags` holds the bit flags. -/
structure FieldValidation where
  lenMin : Int
  lenMax : Int
  valMin : Int
  valMax : Int
  regexp : Option Regex
  flags : Nat

/-- The FieldValidation value Validate starts from for every field:
zero value of the struct with lenMin and lenMax then set to -1
(validator.go lines 79-81). -/
def initValidation : FieldValidation :=
  { lenMin := -1, lenMax := -1, valMin := 0, valMax := 0, regexp := none, flags := 0 }

/-- Go `strconv.Atoi` on a 64-bit platform: optional sign, a nonempty
run of decimal digits, result within the int64 range; anything else is
an error, modelled as `none`. -/
def goAtoi (s : String) : Option Int :=
  let p : Int × List Char :=
    match s.data with
    | '+' :: rest => (1, rest)
    | '-' :: rest => (-1, rest)
    | cs => (1, cs)
  match p with
  | (sign, ds) =>
    if ds.isEmpty then none
    else if ds.all Char.isDigit then
      -- 48 is the code point of the digit zero
      let n : Int := ds.foldl (fun acc c => acc * 10 + Int.ofNat (c.toNat - 48)) 0
      let v := sign * n
      -- 9223372036854775808 is 2 to the 63rd power, the int64 range bound
      if -9223372036854775808 ≤ v ∧ v ≤ 9223372036854775807 then some v else none
    else none

/-- The numeric cases of the switch in setValidationFromTag: store the
parsed integer, and for valmin/valmax of literal zero also set the
corresponding not-nil flag. -/
def applyNumOpt (fv : FieldValidation) (valOpt : String) (i : Int) : FieldValidation :=
  if valOpt = "lenmin" then { fv with lenMin := i }
  else if valOpt = "lenmax" then { fv with lenMax := i }
  else if valOpt = "valmin" then
    { fv with
      valMin := i,
      flags := if i = 0 then fv.flags ||| ValMinNotNil else fv.flags }
  else if valOpt = "valmax" then
    { fv with
      valMax := i,
      flags := if i = 0 then fv.flags ||| ValMaxNotNil else fv.flags }
  else fv

/-- One iteration of the inner loop of setValidationFromTag for a given
key `valOpt`: if the token starts with "valOpt:", strip that head (Go
strings.Replace with count 1, which under the head check drops the
head occurrence) and either compile it (for regexp, panicking on a
malformed pattern) or parse it as an integer (silently ignoring
malformed integers). -/
def applyKV (fv : FieldValidation) (opt valOpt : String) : Except GoPanic FieldValidation :=
  if goHasPrefix opt (valOpt ++ ":") then
    let val := String.mk (opt.data.drop (valOpt ++ ":").length)
    if valOpt = "regexp" then
      match compileRegex val with
      | some r => .ok { fv with regexp := some r }
      | none => .error (.badRegex val)
    else
      match goAtoi val with
      | none => .ok fv
      | some i => .ok (applyNumOpt fv valOpt i)
  else .ok fv

/-- The body of the token loop of setValidationFromTag. -/
def applyOpt (fv : FieldValidation) (opt : String) : Except GoPanic FieldValidation :=
  let fv := if opt = "req" then { fv with flags := fv.flags ||| Required } else fv
  let fv := if opt = "email" then { fv with flags := fv.flags ||| Email } else fv
  match applyKV fv opt "lenmin" with
  | .error e => .error e
  | .ok fv =>
    match applyKV fv opt "lenmax" with
    | .error e => .error e
    | .ok fv =>
      match applyKV fv opt "valmin" with
      | .error e => .error e
      | .ok fv =>
        match applyKV fv opt "valmax" with
        | .error e => .error e
        | .ok fv => applyKV fv opt "regexp"

def setValidationLoop : FieldValidation → List String → Except GoPanic FieldValidation
  | fv, [] => .ok fv
  | fv, opt :: rest =>
    match applyOpt fv opt with
    | .error e => .error e
    | .ok fv2 => setValidationLoop fv2 rest

/-- setValidationFromTag of validator.go: split the tag on single
spaces and process each token. -/
def setValidationFromTag (fv : FieldValidation) (tag : String) : Except GoPanic FieldValidation :=
  setValidationLoop fv (goSplitSpace tag)

/-- The required check of validateValue (validator.go lines 139-146): an
empty required string fails FailEmpty; a required signed-integer zero
fails FailZero unless a bound or a not-nil flag marks zero meaningful. -/
def requiredCheck (value : Value) (fv : FieldValidation) : Except GoPanic (Option Nat) :=
  if fv.flags &&& Required ≠ 0 then
    if value.typeName = "string" ∧ goString value = "" then .ok (some FailEmpty)
    else if goHasPrefix value.typeName "int" = true then
      match goIntE value with
      | .error e => .error e
      | .ok n =>
        if n = 0 ∧ fv.flags &&& ValMinNotNil = 0 ∧ fv.flags &&& ValMaxNotNil = 0 ∧
            fv.valMin = 0 ∧ fv.valMax = 0 then
          .ok (some FailZero)
        else .ok none
    else .ok none
  else .ok none

/-- The email check at the end of the string block of validateValue. -/
def emailCheck (value : Value) (fv : FieldValidation) : Option Nat :=
  if fv.flags &&& Email ≠ 0 ∧ emailMatch (goString value) = false then some FailEmail
  else none

/-- The string-only checks of validateValue (validator.go lines
148-168): guarded by the concrete type name being exactly "string";
length bounds compare the byte length and fire only for bounds
strictly greater than zero; the pattern check uses the unanchored
MatchString semantics. -/
def stringChecks (value : Value) (fv : FieldValidation) : Option Nat :=
  if value.typeName = "string" then
    let s := goString value
    if 0 < fv.lenMin ∧ (s.utf8ByteSize : Int) < fv.lenMin then some FailLenMin
    else if 0 < fv.lenMax ∧ fv.lenMax < (s.utf8ByteSize : Int) then some FailLenMax
    else
      match fv.regexp with
      | some r =>
        if containsMatch r s.data = false then some FailRegexp
        else emailCheck value fv
      | none => emailCheck value fv
  else none

/-- The upper-bound half of the integer checks of validateValue. -/
def intMaxCheck (value : Value) (fv : FieldValidation) : Except GoPanic (Option Nat) :=
  if fv.valMax ≠ 0 ∨ fv.flags &&& ValMaxNotNil ≠ 0 then
    match goIntE value with
    | .error e => .error e
    | .ok n => if n > fv.valMax then .ok (some FailValMax) else .ok none
  else .ok none

/-- The integer-only checks of validateValue (validator.go lines
170-177): guarded by the concrete type name having head "int", so they
fire for the signed integer widths and for nothing else; a bound is
active when it is nonzero or its not-nil flag is set, and the Go
short-circuit evaluates value.Int() only for an active bound. -/
def intChecks (value : Value) (fv : FieldValidation) : Except GoPanic (Option Nat) :=
  if goHasPrefix value.typeName "int" = true then
    if fv.valMin ≠ 0 ∨ fv.flags &&& ValMinNotNil ≠ 0 then
      match goIntE value with
      | .error e => .error e
      | .ok n => if n < fv.valMin then .ok (some FailValMin) else intMaxCheck value fv
    else intMaxCheck value fv
  else .ok none

/-- validateValue of validator.go: the required check, then the string
block, then the integer block, stopping at the first failure. -/
def validateValue (value : Value) (fv : FieldValidation) : Except GoPanic (Bool × Nat) :=
  match requiredCheck value fv with
  | .error e => .error e
  | .ok (some flag) => .ok (false, flag)
  | .ok none =>
    match stringChecks value fv with
    | some flag => .ok (false, flag)
    | none =>
      match intChecks value fv with
      | .error e => .error e
      | .ok (some flag) => .ok (false, flag)
      | .ok none => .ok (true, 0)

/-- reflect.Kind of a field's declared type, restricted to the cases
the package distinguishes. -/
inductive GoKind where
  | int | int8 | int16 | int32 | int64
  | uint | uint8 | uint16 | uint32 | uint64
  | string | bool | float32 | float64 | structv | ptr | other
  deriving DecidableEq

/-- isNotInt of validator.go: true exactly on the signed and unsigned
integer kinds. -/
def isNotInt (k : GoKind) : Bool :=
  match k with
  | .int64 | .int32 | .int16 | .int8 | .int
  | .uint64 | .uint32 | .uint16 | .uint8 | .uint => true
  | _ => false

/-- isNotString of validator.go. -/
def isNotString (k : GoKind) : Bool :=
  match k with
  | .string => true
  | _ => false

/-- One declared struct field: name, declared-type kind, the struct-tag
key-value pairs, and the stored runtime value. -/
structure Field where
  name : String
  kind : GoKind
  tags : List (String × String)
  value : Value

/-- The argument of Validate: whether it was passed as a pointer, and
the declared fields of the struct type. -/
structure Record where
  isPtr : Bool
  fields : List Field

/-- The ValidationOptions struct of validator.go, with Go maps modelled
as association lists. -/
structure ValidationOptions where
  RestrictFields : List (String × Bool)
  OverwriteFieldTags : List (String × List (String × String))
  OverwriteTagName : String
  ValidateWhenSuffix : Bool
  OverwriteFieldValues : List (String × Value)

/-- First-match association-list lookup, the model of a Go map read. -/
def alistFind {α : Type} : List (String × α) → String → Option α
  | [], _ => none
  | (k, v) :: rest, key => if k = key then some v else alistFind rest key

/-- Go `StructTag.Get` / map-of-string read: empty string when absent. -/
def tagGet (tags : List (String × String)) (k : String) : String :=
  (alistFind tags k).getD ""

/-- Read of a Go map[string]bool: false when absent. -/
def mapGetBool (m : List (String × Bool)) (k : String) : Bool :=
  (alistFind m k).getD false

/-- isKeyInMap of validator.go. -/
def isKeyInMap (k : String) (m : List (String × Value)) : Bool :=
  (alistFind m k).isSome

/-- The default ValidationOptions value used when options is nil. -/
def emptyOptions : ValidationOptions :=
  { RestrictFields := [], OverwriteFieldTags := [], OverwriteTagName := "",
    ValidateWhenSuffix := false, OverwriteFieldValues := [] }

/-- Effective tag key name (validator.go lines 57-60). -/
def effectiveTagName (options : Option ValidationOptions) : String :=
  match options with
  | some o => if o.OverwriteTagName ≠ "" then o.OverwriteTagName else "validation"
  | none => "validation"

/-- Tag lookup with OverwriteFieldTags applied (validator.go lines
84-95): the declared primary tag string and regexp tag string, each
replaced by a nonempty per-field override when one is present. -/
def resolveTags (options : Option ValidationOptions) (tagName : String) (field : Field) :
    String × String :=
  let tagVal := tagGet field.tags tagName
  let tagRegexpVal := tagGet field.tags (tagName ++ "_regexp")
  match options with
  | none => (tagVal, tagRegexpVal)
  | some o =>
    if o.OverwriteFieldTags.length > 0 then
      let m := (alistFind o.OverwriteFieldTags field.name).getD []
      if m.length > 0 then
        (if tagGet m tagName ≠ "" then tagGet m tagName else tagVal,
         if tagGet m (tagName ++ "_regexp") ≠ "" then tagGet m (tagName ++ "_regexp")
         else tagRegexpVal)
      else (tagVal, tagRegexpVal)
    else (tagVal, tagRegexpVal)

/-- The ValidateWhenSuffix rules (validator.go lines 102-110): a field
name ending in "Email" gains the Email flag; a field name ending in
"Price" with no bound set at all gains valMin zero with its not-nil
flag. -/
def applySuffixRules (options : Option ValidationOptions) (name : String)
    (v : FieldValidation) : FieldValidation :=
  match options with
  | none => v
  | some o =>
    if o.ValidateWhenSuffix then
      let v :=
        if goHasSuffix name "Email" then { v with flags := v.flags ||| Email } else v
      if goHasSuffix name "Price" ∧ v.valMin = 0 ∧ v.valMax = 0 ∧
          v.flags &&& ValMinNotNil = 0 ∧ v.flags &&& ValMaxNotNil = 0 then
        { v with valMin := 0, flags := v.flags ||| ValMinNotNil }
      else v
    else v

/-- Spec resolution for one field (validator.go lines 79-110): parse
the resolved primary tag string, then, when the resolved regexp tag
string is nonempty, compile it and overwrite the pattern, then apply
the suffix rules.  regexp.MustCompile panics are Except errors. -/
def resolveValidation (options : Option ValidationOptions) (tagName : String)
    (field : Field) : Except GoPanic FieldValidation :=
  match setValidationFromTag initValidation (resolveTags options tagName field).1 with
  | .error e => .error e
  | .ok v =>
    if (resolveTags options tagName field).2 ≠ "" then
      match compileRegex (resolveTags options tagName field).2 with
      | some r => .ok (applySuffixRules options field.name { v with regexp := some r })
      | none => .error (.badRegex (resolveTags options tagName field).2)
    else .ok (applySuffixRules options field.name v)

/-- v.Elem().FieldByName for the stored field value: a reflect panic
when the record was not passed as a pointer. -/
def structFieldValue (obj : Record) (field : Field) : Except GoPanic Value :=
  if obj.isPtr then .ok field.value else .error .elemOfNonPtr

/-- The value used in evaluation (validator.go lines 112-117): an
OverwriteFieldValues entry when one exists, otherwise the stored field
value read through Elem. -/
def fetchFieldValue (obj : Record) (options : Option ValidationOptions)
    (field : Field) : Except GoPanic Value :=
  match options with
  | some o =>
    if o.OverwriteFieldValues.length > 0 ∧ isKeyInMap field.name o.OverwriteFieldValues then
      .ok ((alistFind o.OverwriteFieldValues field.name).getD (.other "nil"))
    else structFieldValue obj field
  | none => structFieldValue obj field

/-- The restriction filter (validator.go lines 70-72). -/
def skipByRestrict (options : Option ValidationOptions) (name : String) : Bool :=
  match options with
  | some o => o.RestrictFields.length > 0 && !(mapGetBool o.RestrictFields name)
  | none => false

/-- The type filter (validator.go lines 74-77): only fields whose
declared kind is an integer kind or the string kind are candidates. -/
def isCandidateKind (k : GoKind) : Bool := isNotInt k || isNotString k

/-- The loop body of Validate for one field: `.ok none` when the field
is skipped or passes, `.ok (some flags)` when it fails validation,
an error when processing it panics. -/
def checkField (obj : Record) (options : Option ValidationOptions) (tagName : String)
    (field : Field) : Except GoPanic (Option Nat) :=
  if skipByRestrict options field.name then .ok none
  else if isCandidateKind field.kind = false then .ok none
  else
    match resolveValidation options tagName field with
    | .error e => .error e
    | .ok validation =>
      match fetchFieldValue obj options field with
      | .error e => .error e
      | .ok value =>
        match validateValue value validation with
        | .error e => .error e
        | .ok (fieldValid, failureFlags) =>
          .ok (if fieldValid then none else some failureFlags)

/-- The field loop of Validate, aggregating overall validity and the
map of failed fields (modelled as an association list in field
order). -/
def validateFields (obj : Record) (options : Option ValidationOptions) (tagName : String) :
    List Field → Except GoPanic (Bool × List (String × Nat))
  | [] => .ok (true, [])
  | f :: rest =>
    match checkField obj options tagName f with
    | .error e => .error e
    | .ok res =>
      match validateFields obj options tagName rest with
      | .error e => .error e
      | .ok (valid, inv) =>
        match res with
        | none => .ok (valid, inv)
        | some flags => .ok (false, (f.name, flags) :: inv)

/-- Validate of validator.go. -/
def Validate (obj : Record) (options : Option ValidationOptions) :
    Except GoPanic (Bool × List (String × Nat)) :=
  validateFields obj options (effectiveTagName options) obj.fields

/-! Helper lemmas about the evaluator components. -/

theorem goHasPrefix_int_ne_string {t : String} (h : goHasPrefix t "int" = true) :
    t ≠ "string" := by
  intro he
  subst he
  exact absurd h (by decide)

theorem requiredCheck_not_required (v : Value) (fv : FieldValidation)
    (h : fv.flags &&& Required = 0) : requiredCheck v fv = .ok none := by
  simp [requiredCheck, h]

theorem requiredCheck_intv_none (t : String) (n : Int) (fv : FieldValidation)
    (hts : t ≠ "string")
    (h : ¬(n = 0 ∧ fv.flags &&& ValMinNotNil = 0 ∧ fv.flags &&& ValMaxNotNil = 0 ∧
      fv.valMin = 0 ∧ fv.valMax = 0)) :
    requiredCheck (Value.intv t n) fv = .ok none := by
  simp only [requiredCheck, Value.typeName, goIntE]
  by_cases hR : fv.flags &&& Required ≠ 0
  · rw [if_pos hR, if_neg (fun hc => hts hc.1)]
    by_cases hp : goHasPrefix t "int" = true
    · rw [if_pos hp, if_neg h]
    · rw [if_neg hp]
  · rw [if_neg hR]

theorem requiredCheck_intv_zero (t : String) (fv : FieldValidation)
    (hts : t ≠ "string") (ht : goHasPrefix t "int" = true)
    (hR : fv.flags &&& Required ≠ 0)
    (h1 : fv.flags &&& ValMinNotNil = 0) (h2 : fv.flags &&& ValMaxNotNil = 0)
    (h3 : fv.valMin = 0) (h4 : fv.valMax = 0) :
    requiredCheck (Value.intv t 0) fv = .ok (some FailZero) := by
  simp only [requiredCheck, Value.typeName, goIntE]
  rw [if_pos hR, if_neg (fun hc => hts hc.1), if_pos ht,
    if_pos (by exact ⟨by trivial, h1, h2, h3, h4⟩)]

theorem requiredCheck_str (s : String) (fv : FieldValidation)
    (h : ¬(fv.flags &&& Required ≠ 0 ∧ s = "")) :
    requiredCheck (Value.str "string" s) fv = .ok none := by
  simp only [requiredCheck, Value.typeName, goString]
  by_cases hR : fv.flags &&& Required ≠ 0
  · rw [if_pos hR, if_neg (fun hc => h ⟨hR, hc.2⟩), if_neg (by decide)]
  · rw [if_neg hR]

theorem stringChecks_not_string (v : Value) (fv : FieldValidation)
    (h : ¬(v.typeName = "string")) : stringChecks v fv = none := by
  simp only [stringChecks]
  rw [if_neg h]

theorem intChecks_not_int (v : Value) (fv : FieldValidation)
    (h : ¬(goHasPrefix v.typeName "int" = true)) : intChecks v fv = .ok none := by
  simp only [intChecks]
  rw [if_neg h]

theorem intChecks_str (s : String) (fv : FieldValidation) :
    intChecks (Value.str "string" s) fv = .ok none :=
  intChecks_not_int (Value.str "string" s) fv
    (show ¬goHasPrefix "string" "int" = true by decide)

theorem intChecks_min_fail (t : String) (n : Int) (fv : FieldValidation)
    (ht : goHasPrefix t "int" = true)
    (hactive : fv.valMin ≠ 0 ∨ fv.flags &&& ValMinNotNil ≠ 0)
    (hlt : n < fv.valMin) :
    intChecks (Value.intv t n) fv = .ok (some FailValMin) := by
  simp only [intChecks, Value.typeName, goIntE]
  rw [if_pos ht, if_pos hactive, if_pos hlt]

theorem intMaxCheck_intv (t : String) (n : Int) (fv : FieldValidation) :
    intMaxCheck (Value.intv t n) fv =
      if (fv.valMax ≠ 0 ∨ fv.flags &&& ValMaxNotNil ≠ 0) ∧ fv.valMax < n then
        .ok (some FailValMax)
      else .ok none := by
  simp only [intMaxCheck, goIntE]
  by_cases ha : fv.valMax ≠ 0 ∨ fv.flags &&& ValMaxNotNil ≠ 0
  · rw [if_pos ha]
    by_cases hgt : fv.valMax < n
    · rw [if_pos hgt, if_pos ⟨ha, hgt⟩]
    · rw [if_neg hgt, if_neg (fun hc => hgt hc.2)]
  · rw [if_neg ha, if_neg (fun hc => ha hc.1)]

theorem intChecks_max_fail (t : String) (n : Int) (fv : FieldValidation)
    (ht : goHasPrefix t "int" = true)
    (hminok : ¬((fv.valMin ≠ 0 ∨ fv.flags &&& ValMinNotNil ≠ 0) ∧ n < fv.valMin))
    (hactive : fv.valMax ≠ 0 ∨ fv.flags &&& ValMaxNotNil ≠ 0)
    (hgt : fv.valMax < n) :
    intChecks (Value.intv t n) fv = .ok (some FailValMax) := by
  simp only [intChecks, Value.typeName, goIntE]
  rw [if_pos ht]
  by_cases hma : fv.valMin ≠ 0 ∨ fv.flags &&& ValMinNotNil ≠ 0
  · rw [if_pos hma, if_neg (fun hlt => hminok ⟨hma, hlt⟩), intMaxCheck_intv,
      if_pos ⟨hactive, hgt⟩]
  · rw [if_neg hma, intMaxCheck_intv, if_pos ⟨hactive, hgt⟩]

theorem intChecks_pass (t : String) (n : Int) (fv : FieldValidation)
    (hmin : ¬((fv.valMin ≠ 0 ∨ fv.flags &&& ValMinNotNil ≠ 0) ∧ n < fv.valMin))
    (hmax : ¬((fv.valMax ≠ 0 ∨ fv.flags &&& ValMaxNotNil ≠ 0) ∧ fv.valMax < n)) :
    intChecks (Value.intv t n) fv = .ok none := by
  simp only [intChecks, Value.typeName, goIntE]
  by_cases ht : goHasPrefix t "int" = true
  · rw [if_pos ht]
    by_cases hma : fv.valMin ≠ 0 ∨ fv.flags &&& ValMinNotNil ≠ 0
    · rw [if_pos hma, if_neg (fun hlt => hmin ⟨hma, hlt⟩), intMaxCheck_intv, if_neg hmax]
    · rw [if_neg hma, intMaxCheck_intv, if_neg hmax]
  · rw [if_neg ht]

theorem requiredCheck_neither (v : Value) (fv : FieldValidation)
    (hs : ¬(v.typeName = "string")) (hi : ¬(goHasPrefix v.typeName "int" = true)) :
    requiredCheck v fv = .ok none := by
  simp only [requiredCheck]
  by_cases hR : fv.flags &&& Required ≠ 0
  · rw [if_pos hR, if_neg (fun hc => hs hc.1), if_neg hi]
  · rw [if_neg hR]

theorem intChecks_intv (t : String) (n : Int) (fv : FieldValidation)
    (ht : goHasPrefix t "int" = true) :
    intChecks (Value.intv t n) fv =
      if (fv.valMin ≠ 0 ∨ fv.flags &&& ValMinNotNil ≠ 0) ∧ n < fv.valMin then
        .ok (some FailValMin)
      else if (fv.valMax ≠ 0 ∨ fv.flags &&& ValMaxNotNil ≠ 0) ∧ fv.valMax < n then
        .ok (some FailValMax)
      else .ok none := by
  simp only [intChecks, Value.typeName, goIntE]
  rw [if_pos ht]
  by_cases hma : fv.valMin ≠ 0 ∨ fv.flags &&& ValMinNotNil ≠ 0
  · rw [if_pos hma]
    by_cases hlt : n < fv.valMin
    · rw [if_pos hlt, if_pos ⟨hma, hlt⟩]
    · rw [if_neg hlt, if_neg (fun hc => hlt hc.2), intMaxCheck_intv]
  · rw [if_neg hma, if_neg (fun hc => hma hc.1), intMaxCheck_intv]

theorem validateValue_parts (v : Value) (fv : FieldValidation) :
    validateValue v fv =
      match requiredCheck v fv with
      | .error e => .error e
      | .ok (some flag) => .ok (false, flag)
      | .ok none =>
        match stringChecks v fv with
        | some flag => .ok (false, flag)
        | none =>
          match intChecks v fv with
          | .error e => .error e
          | .ok (some flag) => .ok (false, flag)
          | .ok none => .ok (true, 0) := rfl

/-! Claim theorems. -/

/-- C1 (counterexample): a candidate field of an unsigned integer width
(uint64, so isNotInt is true for its kind) declared valmin:5 with value
1 has an active lower bound and a value below it, yet Validate reports
it as passing, against the claim that the integer bound checks apply to
every signed or unsigned integer width and would fail it with ValMin. -/
theorem C1_counterexample :
    isNotInt GoKind.uint64 = true ∧ (5 : Int) ≠ 0 ∧ (1 : Int) < 5 ∧
    Validate
      { isPtr := true,
        fields := [{ name := "Num", kind := GoKind.uint64, tags := [("validation", "valmin:5")], value := Value.intv "uint64" 1 }] }
      none = .ok (true, []) :=
  ⟨by decide, by decide, by decide, by decide⟩

/-- C1 (amended): the integer bound checks of evaluate apply exactly to
values whose concrete type name has head "int", that is the signed
integer widths: for such a value an active lower bound (valueMin
nonzero or the min meaningful-zero flag) with value below valueMin
fails ValMin, and an active upper bound with value above valueMax fails
ValMax when the min check did not fire first.  Unsigned widths never
reach these checks. -/
theorem C1_integer_bounds_signed_only (t : String) (ht : goHasPrefix t "int" = true)
    (n : Int) (fv : FieldValidation) :
    ((fv.valMin ≠ 0 ∨ fv.flags &&& ValMinNotNil ≠ 0) → n < fv.valMin →
      validateValue (Value.intv t n) fv = .ok (false, FailValMin)) ∧
    (¬((fv.valMin ≠ 0 ∨ fv.flags &&& ValMinNotNil ≠ 0) ∧ n < fv.valMin) →
      (fv.valMax ≠ 0 ∨ fv.flags &&& ValMaxNotNil ≠ 0) → fv.valMax < n →
      validateValue (Value.intv t n) fv = .ok (false, FailValMax)) := by
  have hts := goHasPrefix_int_ne_string ht
  constructor
  · intro hactive hlt
    have hreq : requiredCheck (Value.intv t n) fv = .ok none := by
      apply requiredCheck_intv_none t n fv hts
      rintro ⟨h0, hmin, hmax, hvmin, hvmax⟩
      rcases hactive with h | h
      · exact h hvmin
      · exact h hmin
    rw [validateValue_parts, hreq,
      stringChecks_not_string (Value.intv t n) fv hts,
      intChecks_min_fail t n fv ht hactive hlt]
  · intro hminok hactive hgt
    have hreq : requiredCheck (Value.intv t n) fv = .ok none := by
      apply requiredCheck_intv_none t n fv hts
      rintro ⟨h0, hmin, hmax, hvmin, hvmax⟩
      rcases hactive with h | h
      · exact h hvmax
      · exact h hmax
    rw [validateValue_parts, hreq,
      stringChecks_not_string (Value.intv t n) fv hts,
      intChecks_max_fail t n fv ht hminok hactive hgt]

/-- C1 (witness): the amended theorem applied to an int64 value 1
against valmin 5, and to an int value 3 against valmax 2. -/
theorem C1_integer_bounds_witness :
    validateValue (Value.intv "int64" 1)
      { lenMin := -1, lenMax := -1, valMin := 5, valMax := 0, regexp := none, flags := 0 } = .ok (false, FailValMin) ∧
    validateValue (Value.intv "int" 3)
      { lenMin := -1, lenMax := -1, valMin := 0, valMax := 2, regexp := none, flags := 0 } = .ok (false, FailValMax) :=
  ⟨(C1_integer_bounds_signed_only "int64" (by decide) 1
      { lenMin := -1, lenMax := -1, valMin := 5, valMax := 0, regexp := none, flags := 0 }).1 (Or.inl (by decide)) (by decide),
   (C1_integer_bounds_signed_only "int" (by decide) 3
      { lenMin := -1, lenMax := -1, valMin := 0, valMax := 2, regexp := none, flags := 0 }).2 (by decide) (Or.inl (by decide)) (by decide)⟩

/-- C3 (counterexample): parsing lenmax:0 stores the bound zero, but the
length checks of validateValue fire only for bounds strictly greater
than zero, so the one-character string "a" passes instead of failing
LenMax as the claim states. -/
theorem C3_counterexample :
    setValidationFromTag initValidation "lenmax:0" =
      .ok { lenMin := -1, lenMax := 0, valMin := 0, valMax := 0, regexp := none, flags := 0 } ∧
    validateValue (Value.str "string" "a")
      { lenMin := -1, lenMax := 0, valMin := 0, valMax := 0, regexp := none, flags := 0 } = .ok (true, 0) :=
  ⟨rfl, by decide⟩

/-- C3 (amended): a length bound is active only when strictly positive;
lenmin or lenmax configured as zero (or negative, or left at the -1
sentinel) imposes nothing.  A string shorter than an active lenMin
fails LenMin, a string longer than an active lenMax fails LenMax, and
with both bounds nonpositive (no pattern, no email flag) the string
checks pass. -/
theorem C3_length_bounds_positive (s : String) (fv : FieldValidation)
    (hreq : ¬(fv.flags &&& Required ≠ 0 ∧ s = "")) :
    ((0 < fv.lenMin ∧ (s.utf8ByteSize : Int) < fv.lenMin) →
      validateValue (Value.str "string" s) fv = .ok (false, FailLenMin)) ∧
    (¬(0 < fv.lenMin ∧ (s.utf8ByteSize : Int) < fv.lenMin) →
      (0 < fv.lenMax ∧ fv.lenMax < (s.utf8ByteSize : Int)) →
      validateValue (Value.str "string" s) fv = .ok (false, FailLenMax)) ∧
    (fv.lenMin ≤ 0 → fv.lenMax ≤ 0 → fv.regexp = none → fv.flags &&& Email = 0 →
      validateValue (Value.str "string" s) fv = .ok (true, 0)) := by
  have hreqc := requiredCheck_str s fv hreq
  refine ⟨?_, ?_, ?_⟩
  · intro hlt
    rw [validateValue_parts, hreqc]
    simp only [stringChecks, Value.typeName, goString]
    rw [if_pos trivial, if_pos hlt]
  · intro hminok hgt
    rw [validateValue_parts, hreqc]
    simp only [stringChecks, Value.typeName, goString]
    rw [if_pos trivial, if_neg hminok, if_pos hgt]
  · intro hmin hmax hre hem
    rw [validateValue_parts, hreqc]
    simp only [stringChecks, Value.typeName, goString]
    rw [if_pos trivial, if_neg (fun hc => absurd hc.1 (by omega)),
      if_neg (fun hc => absurd hc.1 (by omega)), hre]
    simp only [emailCheck]
    rw [if_neg (fun hc => hc.1 hem), intChecks_str]

/-- C3 (witness): the amended theorem applied to the string "abc" with
lenmax 2 (fails LenMax) and to the string "a" with the spec parsed from
lenmax:0 (passes). -/
theorem C3_length_bounds_witness :
    validateValue (Value.str "string" "abc")
      { lenMin := -1, lenMax := 2, valMin := 0, valMax := 0, regexp := none, flags := 0 } = .ok (false, FailLenMax) ∧
    validateValue (Value.str "string" "a")
      { lenMin := -1, lenMax := 0, valMin := 0, valMax := 0, regexp := none, flags := 0 } = .ok (true, 0) :=
  ⟨(C3_length_bounds_positive "abc"
      { lenMin := -1, lenMax := 2, valMin := 0, valMax := 0, regexp := none, flags := 0 } (by decide)).2.1 (by decide) (by decide),
   (C3_length_bounds_positive "a"
      { lenMin := -1, lenMax := 0, valMin := 0, valMax := 0, regexp := none, flags := 0 } (by decide)).2.2 (by decide) (by decide) rfl (by decide)⟩

/-- C4 (counterexample): a required field of an unsigned width (uint8 is
an integer kind per isNotInt) with value zero and no bounds set passes,
against the claim that every required integer value equal to zero with
none of the meaningful-zero conditions fails Zero: the Zero check is
guarded by the type name having head "int", which "uint8" does not. -/
theorem C4_counterexample :
    isNotInt GoKind.uint8 = true ∧
    validateValue (Value.intv "uint8" 0)
      { lenMin := -1, lenMax := -1, valMin := 0, valMax := 0, regexp := none, flags := Required } = .ok (true, 0) :=
  ⟨by decide, by decide⟩

/-- C4 (amended): for a required value of a signed integer width (type
name with head "int") equal to zero, evaluate fails Zero exactly when
none of the two meaningful-zero flags and the two bounds is set; in
particular `req` alone with value 0 fails Zero, while `req valmin:0`
with value 0 passes both the required check and the bound checks. -/
theorem C4_required_zero (t : String) (ht : goHasPrefix t "int" = true)
    (fv : FieldValidation) (hreq : fv.flags &&& Required ≠ 0) :
    (validateValue (Value.intv t 0) fv = .ok (false, FailZero) ↔
      (fv.flags &&& ValMinNotNil = 0 ∧ fv.flags &&& ValMaxNotNil = 0 ∧
        fv.valMin = 0 ∧ fv.valMax = 0)) ∧
    validateValue (Value.intv "int" 0)
      { lenMin := -1, lenMax := -1, valMin := 0, valMax := 0, regexp := none, flags := Required } = .ok (false, FailZero) ∧
    (∃ fv2, setValidationFromTag initValidation "req valmin:0" = .ok fv2 ∧
      validateValue (Value.intv "int" 0) fv2 = .ok (true, 0)) := by
  have hts := goHasPrefix_int_ne_string ht
  refine ⟨⟨?_, ?_⟩, by decide,
    ⟨{ lenMin := -1, lenMax := -1, valMin := 0, valMax := 0, regexp := none, flags := 10 }, rfl, by decide⟩⟩
  · intro h
    by_cases hC : fv.flags &&& ValMinNotNil = 0 ∧ fv.flags &&& ValMaxNotNil = 0 ∧
        fv.valMin = 0 ∧ fv.valMax = 0
    · exact hC
    · exfalso
      have hreqn : requiredCheck (Value.intv t 0) fv = .ok none :=
        requiredCheck_intv_none t 0 fv hts (fun hc => hC hc.2)
      rw [validateValue_parts, hreqn,
        stringChecks_not_string (Value.intv t 0) fv hts,
        intChecks_intv t 0 fv ht] at h
      by_cases hA : (fv.valMin ≠ 0 ∨ fv.flags &&& ValMinNotNil ≠ 0) ∧ (0 : Int) < fv.valMin
      · rw [if_pos hA] at h
        exact absurd h (by decide)
      · rw [if_neg hA] at h
        by_cases hB : (fv.valMax ≠ 0 ∨ fv.flags &&& ValMaxNotNil ≠ 0) ∧ fv.valMax < (0 : Int)
        · rw [if_pos hB] at h
          exact absurd h (by decide)
        · rw [if_neg hB] at h
          exact absurd h (by decide)
  · rintro ⟨h1, h2, h3, h4⟩
    rw [validateValue_parts, requiredCheck_intv_zero t fv hts ht hreq h1 h2 h3 h4]

/-- C4 (witness): the amended equivalence applied at the concrete type
name "int" with the flags of a bare `req` declaration. -/
theorem C4_required_zero_witness :
    validateValue (Value.intv "int" 0)
      { lenMin := -1, lenMax := -1, valMin := 0, valMax := 0, regexp := none, flags := 8 } = .ok (false, FailZero) :=
  (C4_required_zero "int" (by decide)
    { lenMin := -1, lenMax := -1, valMin := 0, valMax := 0, regexp := none, flags := 8 } (by decide)).1.mpr (by decide)

/-- C2 (counterexample): the pattern "a" compiles to a plain literal;
the string "ba" does not match it under anchored whole-string
semantics, so the claim says evaluate must fail Regexp, but evaluate
passes because MatchString only asks for a match somewhere inside the
string. -/
theorem C2_counterexample :
    compileRegex "a" = some (Regex.concat (Regex.char 'a') Regex.eps) ∧
    fullMatch (Regex.concat (Regex.char 'a') Regex.eps) "ba".data = false ∧
    validateValue (Value.str "string" "ba")
      { lenMin := -1, lenMax := -1, valMin := 0, valMax := 0,
        regexp := some (Regex.concat (Regex.char 'a') Regex.eps), flags := 0 } =
      .ok (true, 0) :=
  ⟨rfl, by decide, by decide⟩

/-- C2 (amended): for a string value with a compiled pattern set, when
the earlier required and length checks do not fire, evaluate fails
Regexp exactly when the string does not contain a match of the pattern
anywhere (the unanchored MatchString semantics), not the anchored
whole-string semantics the claim states. -/
theorem C2_regexp_substring (s : String) (r : Regex) (fv : FieldValidation)
    (hre : fv.regexp = some r)
    (hreq : ¬(fv.flags &&& Required ≠ 0 ∧ s = ""))
    (hmin : ¬(0 < fv.lenMin ∧ (s.utf8ByteSize : Int) < fv.lenMin))
    (hmax : ¬(0 < fv.lenMax ∧ fv.lenMax < (s.utf8ByteSize : Int))) :
    validateValue (Value.str "string" s) fv = .ok (false, FailRegexp) ↔
      containsMatch r s.data = false := by
  have hreqc := requiredCheck_str s fv hreq
  rw [validateValue_parts, hreqc]
  simp only [stringChecks, Value.typeName, goString]
  rw [if_pos trivial, if_neg hmin, if_neg hmax]
  simp only [hre]
  by_cases hc : containsMatch r s.data = false
  · rw [if_pos hc]
    simp [hc]
  · rw [if_neg hc]
    simp only [emailCheck, goString]
    by_cases he : fv.flags &&& Email ≠ 0 ∧ emailMatch s = false
    · rw [if_pos he]
      simp [FailEmail, FailRegexp, hc]
    · rw [if_neg he, intChecks_str]
      simp [FailRegexp, hc]

/-- C2 (witness): the amended equivalence applied to the string "zz"
and the literal pattern for the character a, which the string does not
contain, so evaluate fails Regexp. -/
theorem C2_regexp_substring_witness :
    validateValue (Value.str "string" "zz")
      { lenMin := -1, lenMax := -1, valMin := 0, valMax := 0,
        regexp := some (Regex.char 'a'), flags := 0 } = .ok (false, FailRegexp) :=
  (C2_regexp_substring "zz" (Regex.char 'a')
    { lenMin := -1, lenMax := -1, valMin := 0, valMax := 0,
      regexp := some (Regex.char 'a'), flags := 0 }
    rfl (by decide) (by decide) (by decide)).mpr (by decide)

/-- C5: parsing valmin:0 and valmax:0 stores the bounds and sets the
corresponding meaningful-zero flags, and evaluation honours them: with
`valmin:0 valmax:0` the value 0 passes both bound checks, -1 fails
ValMin, 1 fails ValMax; with only `valmax:5` the value 0 is never
flagged by the min check since no lower bound is active. -/
theorem C5_zero_bound_semantics :
    setValidationFromTag initValidation "valmin:0 valmax:0" =
      .ok { lenMin := -1, lenMax := -1, valMin := 0, valMax := 0, regexp := none, flags := ValMinNotNil ||| ValMaxNotNil } ∧
    validateValue (Value.intv "int" 0)
      { lenMin := -1, lenMax := -1, valMin := 0, valMax := 0, regexp := none, flags := ValMinNotNil ||| ValMaxNotNil } = .ok (true, 0) ∧
    validateValue (Value.intv "int" (-1))
      { lenMin := -1, lenMax := -1, valMin := 0, valMax := 0, regexp := none, flags := ValMinNotNil ||| ValMaxNotNil } = .ok (false, FailValMin) ∧
    validateValue (Value.intv "int" 1)
      { lenMin := -1, lenMax := -1, valMin := 0, valMax := 0, regexp := none, flags := ValMinNotNil ||| ValMaxNotNil } = .ok (false, FailValMax) ∧
    setValidationFromTag initValidation "valmax:5" =
      .ok { lenMin := -1, lenMax := -1, valMin := 0, valMax := 5, regexp := none, flags := 0 } ∧
    validateValue (Value.intv "int" 0)
      { lenMin := -1, lenMax := -1, valMin := 0, valMax := 5, regexp := none, flags := 0 } = .ok (true, 0) :=
  ⟨rfl, by decide, by decide, by decide, rfl, by decide⟩

/-- C8: a FieldSpec with every field at its absent or false default
(the initValidation value Validate starts from: length bounds at the -1
sentinel, both value bounds zero with both meaningful-zero flags clear,
no pattern, not required, no email flag) passes for every runtime
value and reports no failure kind. -/
theorem C8_empty_spec_passes (v : Value) :
    validateValue v initValidation = .ok (true, 0) := by
  have hreqc : requiredCheck v initValidation = .ok none :=
    requiredCheck_not_required v initValidation (by decide)
  have hstr : stringChecks v initValidation = none := by
    by_cases hs : v.typeName = "string"
    · simp [stringChecks, emailCheck, initValidation, hs]
    · exact stringChecks_not_string v initValidation hs
  have hint : intChecks v initValidation = .ok none := by
    by_cases hi : goHasPrefix v.typeName "int" = true
    · simp [intChecks, intMaxCheck, initValidation, hi]
    · exact intChecks_not_int v initValidation hi
  rw [validateValue_parts, hreqc, hstr, hint]

/-- C10 (counterexample): a named defined type of integer kind whose
name happens to begin with "int" (for example `type intage int`) does
reach the integer checks, so declared constraints are enforced for it
and it does not always pass: with valmin 5 and value 1 it fails ValMin,
refuting the universally quantified claim. -/
theorem C10_counterexample :
    isNotInt GoKind.int = true ∧
    validateValue (Value.intv "intage" 1)
      { lenMin := -1, lenMax := -1, valMin := 5, valMax := 0, regexp := none, flags := 0 } = .ok (false, FailValMin) ∧
    Validate
      { isPtr := true,
        fields :=
          [{ name := "Weeks", kind := GoKind.int, tags := [("validation", "valmin:5")],
             value := Value.intv "intage" 1 }] } none =
      .ok (false, [("Weeks", FailValMin)]) :=
  ⟨by decide, by decide, by decide⟩

/-- C10 (amended): every check of validateValue dispatches on the
concrete type name being exactly "string" or having head "int", so a
value of a named defined type whose name is neither "string" nor
"int"-headed passes regardless of the declared constraints and of the
value. -/
theorem C10_named_type_dispatch (v : Value) (fv : FieldValidation)
    (hs : ¬(v.typeName = "string")) (hi : ¬(goHasPrefix v.typeName "int" = true)) :
    validateValue v fv = .ok (true, 0) := by
  rw [validateValue_parts, requiredCheck_neither v fv hs hi,
    stringChecks_not_string v fv hs, intChecks_not_int v fv hi]

/-- C10 (witness): the amended theorem applied to a value of a defined
string type named "Country" that is empty and required with a length
bound, which nevertheless passes. -/
theorem C10_named_type_witness :
    validateValue (Value.str "Country" "")
      { lenMin := 5, lenMax := -1, valMin := 0, valMax := 0, regexp := none, flags := Required } = .ok (true, 0) :=
  C10_named_type_dispatch (Value.str "Country" "")
    { lenMin := 5, lenMax := -1, valMin := 0, valMax := 0, regexp := none, flags := Required } (by decide) (by decide)

/-! Helper lemmas for the Validate-level claims. -/

theorem applySuffixRules_regexp (options : Option ValidationOptions) (name : String)
    (v : FieldValidation) : (applySuffixRules options name v).regexp = v.regexp := by
  unfold applySuffixRules
  cases options with
  | none => rfl
  | some o =>
    by_cases hw : o.ValidateWhenSuffix = true
    · simp only [if_pos hw]
      by_cases he : goHasSuffix name "Email" = true
      · simp only [if_pos he]
        split <;> rfl
      · simp only [if_neg he]
        split <;> rfl
    · simp only [if_neg hw]

theorem resolveValidation_parse_error (options : Option ValidationOptions)
    (tagName : String) (f : Field) (e : GoPanic)
    (h : setValidationFromTag initValidation (resolveTags options tagName f).1 = .error e) :
    resolveValidation options tagName f = .error e := by
  unfold resolveValidation
  rw [h]

theorem resolveValidation_key_regex_error (options : Option ValidationOptions)
    (tagName : String) (f : Field) (p : String) (v0 : FieldValidation)
    (hp : (resolveTags options tagName f).2 = p) (hne : p ≠ "")
    (hbad : compileRegex p = none)
    (hok : setValidationFromTag initValidation (resolveTags options tagName f).1 = .ok v0) :
    resolveValidation options tagName f = .error (.badRegex p) := by
  unfold resolveValidation
  rw [hp]
  simp only [hok]
  rw [if_pos hne, hbad]

theorem checkField_eq (obj : Record) (options : Option ValidationOptions)
    (tagName : String) (f : Field)
    (hskip : skipByRestrict options f.name = false)
    (hkind : isCandidateKind f.kind = true) :
    checkField obj options tagName f =
      match resolveValidation options tagName f with
      | .error e => .error e
      | .ok validation =>
        match fetchFieldValue obj options f with
        | .error e => .error e
        | .ok value =>
          match validateValue value validation with
          | .error e => .error e
          | .ok (fieldValid, failureFlags) =>
            .ok (if fieldValid then none else some failureFlags) := by
  unfold checkField
  rw [if_neg (by simp [hskip]), if_neg (by simp [hkind])]

theorem fetchFieldValue_nonptr (obj : Record) (options : Option ValidationOptions)
    (f : Field) (hptr : obj.isPtr = false)
    (hoverride : ∀ o, options = some o → isKeyInMap f.name o.OverwriteFieldValues = false) :
    fetchFieldValue obj options f = .error .elemOfNonPtr := by
  cases options with
  | none => simp [fetchFieldValue, structFieldValue, hptr]
  | some o =>
    have hk := hoverride o rfl
    simp [fetchFieldValue, structFieldValue, hptr, hk]

theorem checkField_error_of_nonptr (obj : Record) (options : Option ValidationOptions)
    (tagName : String) (f : Field) (hptr : obj.isPtr = false)
    (hskip : skipByRestrict options f.name = false)
    (hkind : isCandidateKind f.kind = true)
    (hoverride : ∀ o, options = some o → isKeyInMap f.name o.OverwriteFieldValues = false) :
    ∃ e, checkField obj options tagName f = .error e := by
  rw [checkField_eq obj options tagName f hskip hkind]
  cases hr : resolveValidation options tagName f with
  | error e => exact ⟨e, rfl⟩
  | ok v =>
    rw [fetchFieldValue_nonptr obj options f hptr hoverride]
    exact ⟨.elemOfNonPtr, rfl⟩

theorem validateFields_error_of_mem (obj : Record) (options : Option ValidationOptions)
    (tagName : String) (f : Field) (fs : List Field) (hmem : f ∈ fs)
    (hf : ∃ e, checkField obj options tagName f = .error e) :
    ∃ e, validateFields obj options tagName fs = .error e := by
  induction fs with
  | nil => exact absurd hmem (List.not_mem_nil f)
  | cons g rest ih =>
    cases hcg : checkField obj options tagName g with
    | error e => exact ⟨e, by simp [validateFields, hcg]⟩
    | ok res =>
      rcases List.mem_cons.mp hmem with heq | hmem2
      · subst heq
        obtain ⟨e, he⟩ := hf
        rw [hcg] at he
        exact absurd he (by simp)
      · obtain ⟨e, he⟩ := ih hmem2
        exact ⟨e, by simp [validateFields, hcg, he]⟩

/-- C6: a malformed pattern, whether it comes from a regexp token of
the (possibly overridden) primary declaration string or from the
(possibly overridden) regex metadata key, makes spec resolution fail,
and Validate propagates that failure to the caller as a distinguishable
error value instead of returning a validation result, so it is neither
a failed-validation outcome nor an entry in the failure map. -/
theorem C6_bad_pattern_fatal (options : Option ValidationOptions) (f : Field) (b : Bool)
    (hskip : skipByRestrict options f.name = false)
    (hkind : isCandidateKind f.kind = true) :
    (∀ e, setValidationFromTag initValidation
        (resolveTags options (effectiveTagName options) f).1 = .error e →
      Validate { isPtr := b, fields := [f] } options = .error e) ∧
    (∀ p v0, (resolveTags options (effectiveTagName options) f).2 = p → p ≠ "" →
      compileRegex p = none →
      setValidationFromTag initValidation
        (resolveTags options (effectiveTagName options) f).1 = .ok v0 →
      Validate { isPtr := b, fields := [f] } options = .error (.badRegex p)) := by
  constructor
  · intro e he
    have h2 : checkField { isPtr := b, fields := [f] } options (effectiveTagName options) f
        = .error e := by
      rw [checkField_eq _ options (effectiveTagName options) f hskip hkind,
        resolveValidation_parse_error options (effectiveTagName options) f e he]
    show validateFields { isPtr := b, fields := [f] } options (effectiveTagName options) [f]
      = .error e
    simp [validateFields, h2]
  · intro p v0 hp hne hbad hok
    have h2 : checkField { isPtr := b, fields := [f] } options (effectiveTagName options) f
        = .error (.badRegex p) := by
      rw [checkField_eq _ options (effectiveTagName options) f hskip hkind,
        resolveValidation_key_regex_error options (effectiveTagName options) f p v0 hp hne
          hbad hok]
    show validateFields { isPtr := b, fields := [f] } options (effectiveTagName options) [f]
      = .error (.badRegex p)
    simp [validateFields, h2]

/-- C6 (witness): the theorem applied to a field whose regex metadata
key holds the malformed pattern "(" and to a field whose primary
declaration string holds the malformed token regexp:( — both calls
return the distinguishable badRegex error. -/
theorem C6_bad_pattern_witness :
    Validate
      { isPtr := true,
        fields :=
          [{ name := "A", kind := GoKind.string, tags := [("validation_regexp", "(")],
             value := Value.str "string" "x" }] }
      none = .error (.badRegex "(") ∧
    Validate
      { isPtr := true,
        fields :=
          [{ name := "B", kind := GoKind.string, tags := [("validation", "regexp:(")],
             value := Value.str "string" "x" }] }
      none = .error (.badRegex "(") :=
  ⟨(C6_bad_pattern_fatal none
      { name := "A", kind := GoKind.string, tags := [("validation_regexp", "(")],
        value := Value.str "string" "x" } true rfl (by decide)).2
      "(" initValidation rfl (by decide) rfl rfl,
   (C6_bad_pattern_fatal none
      { name := "B", kind := GoKind.string, tags := [("validation", "regexp:(")],
        value := Value.str "string" "x" } true rfl (by decide)).1
      (.badRegex "(") rfl⟩

/-- C7: when the resolved primary declaration string parses (possibly
setting a pattern through its regexp token) and the resolved regex
metadata key value is nonempty and compiles, the key-based pattern is
attached after the primary string is parsed, so the resolved FieldSpec
carries the key-based pattern — last writer wins. -/
theorem C7_regex_key_wins (options : Option ValidationOptions) (tagName : String)
    (f : Field) (q : String) (r : Regex) (v0 : FieldValidation)
    (hq : (resolveTags options tagName f).2 = q) (hne : q ≠ "")
    (hcomp : compileRegex q = some r)
    (hparse : setValidationFromTag initValidation (resolveTags options tagName f).1 = .ok v0) :
    ∃ vf, resolveValidation options tagName f = .ok vf ∧ vf.regexp = some r := by
  refine ⟨applySuffixRules options f.name { v0 with regexp := some r }, ?_, ?_⟩
  · unfold resolveValidation
    rw [hq]
    simp only [hparse]
    rw [if_pos hne, hcomp]
  · rw [applySuffixRules_regexp]

/-- C7 (witness): a field declaring both regexp:a in the primary string
and the pattern b under the regex key resolves to a FieldSpec whose
pattern is the compiled b. -/
theorem C7_regex_key_witness :
    ∃ vf, resolveValidation none "validation"
      { name := "A", kind := GoKind.string,
        tags := [("validation", "regexp:a"), ("validation_regexp", "b")],
        value := Value.str "string" "x" } = .ok vf ∧
      vf.regexp = some (Regex.concat (Regex.char 'b') Regex.eps) :=
  C7_regex_key_wins none "validation"
    { name := "A", kind := GoKind.string,
      tags := [("validation", "regexp:a"), ("validation_regexp", "b")],
      value := Value.str "string" "x" }
    "b" (Regex.concat (Regex.char 'b') Regex.eps)
    { lenMin := -1, lenMax := -1, valMin := 0, valMax := 0,
      regexp := some (Regex.concat (Regex.char 'a') Regex.eps), flags := 0 }
    rfl (by decide) rfl rfl

/-- C9: for a record passed by value rather than by pointer, if some
field passes the restriction and type filters and its name is not a key
of OverwriteFieldValues, Validate does not return a result: reading the
field value goes through reflect.Value.Elem, which panics on a
non-pointer, so the call ends in a panic (an Except error in this
model); Validate can return normally for such a record only when every
evaluated field's value comes from OverwriteFieldValues. -/
theorem C9_nonpointer_panics (obj : Record) (options : Option ValidationOptions)
    (f : Field) (hmem : f ∈ obj.fields) (hptr : obj.isPtr = false)
    (hskip : skipByRestrict options f.name = false)
    (hkind : isCandidateKind f.kind = true)
    (hoverride : ∀ o, options = some o → isKeyInMap f.name o.OverwriteFieldValues = false) :
    ∃ e, Validate obj options = .error e :=
  validateFields_error_of_mem obj options (effectiveTagName options) f obj.fields hmem
    (checkField_error_of_nonptr obj options (effectiveTagName options) f hptr hskip hkind
      hoverride)

/-- C9 (witness): the theorem applied to a by-value record with a
single plain int field and nil options. -/
theorem C9_nonpointer_witness :
    ∃ e, Validate
      { isPtr := false,
        fields :=
          [{ name := "A", kind := GoKind.int, tags := [],
             value := Value.intv "int" 3 }] } none = .error e :=
  C9_nonpointer_panics
    { isPtr := false,
      fields :=
        [{ name := "A", kind := GoKind.int, tags := [],
           value := Value.intv "int" 3 }] } none
    { name := "A", kind := GoKind.int, tags := [], value := Value.intv "int" 3 }
    (List.Mem.head _) rfl rfl (by decide) (fun o h => nomatch h)

end StructValidator
